import Mathlib

/-!
Shallow embedding of the Binary Image Metadata Extractor from
`src/core/image-dimensions.ts` (class `ImageDimensionsDetector`) together with
the signature constants of `src/core/constants.ts`.

Modelling conventions:
* A byte buffer (`Uint8Array`) is a `List Nat`; every byte of a concrete
  buffer is below 256.  The `DataView` in the source is created over the whole
  underlying buffer, so view offsets and array offsets coincide.
* Every indexed read (`imageData[i]`, `dataView.getUint16`, `dataView.getUint32`)
  is modelled by an `Option`-valued read; a read that would go out of bounds
  yields `none`, which the parsers surface as the distinguished outcome
  `ParseOutcome.fault`.  The source relies on explicit bounds guards before
  each read, so `fault` is provably unreachable; keeping it in the model makes
  the memory-safety statements meaningful.
* The `while` loops of the WebP and JPEG scanners are modelled with an explicit
  fuel argument (structural recursion); the top-level entry points supply
  `buffer.length + 1` fuel, which is shown sufficient (running out of fuel
  would also surface as `fault`, and the safety theorems exclude it).
* JavaScript exceptions are modelled as `ParseOutcome.err` carrying the error
  kind of the throw site: the WebP and JPEG throws are `DimensionsNotFound`,
  the PNG throw is `MalformedHeader`, and the unsupported-format throw in
  `getImageDimensions` is `UnsupportedFormat`.
* `calculateAspectRatio` uses JavaScript number division.  For every reachable
  input the divisions are exact, so `Nat` division is faithful; the only
  divergent point is `(0, 0)`, where JavaScript produces `NaN` and the `Nat`
  model produces `0` (`0 / 0 = 0`).  No theorem below evaluates `(0, 0)`.
-/

abbrev Byte := Nat

inductive ImageFormat where
  | webp
  | jpeg
  | png
deriving DecidableEq, Repr

/-- `ImageDimensions` record of `image-dimensions.ts`. -/
structure ImageDimensions where
  width : Nat
  height : Nat
  format : ImageFormat
deriving DecidableEq, Repr

/-- `AspectRatio` record of `image-dimensions.ts`. -/
structure AspectRatio where
  width : Nat
  height : Nat
deriving DecidableEq, Repr

/-- Error kinds of the spec's taxonomy that the source code can actually
raise, one per throw site. -/
inductive DimError where
  | unsupportedFormat
  | malformedHeader
  | dimensionsNotFound
deriving DecidableEq, Repr

/-- Outcome of a parser call: success, a thrown error, or `fault` marking an
unguarded out-of-bounds read (never reachable, as proved below). -/
inductive ParseOutcome where
  | ok (d : ImageDimensions)
  | err (e : DimError)
  | fault
deriving DecidableEq, Repr

/-- `imageData[i]` under the bounds discipline of the source. -/
def readByte? (b : List Byte) (i : Nat) : Option Byte :=
  if h : i < b.length then some (b.get ⟨i, h⟩) else none

/-- `dataView.getUint16(i)` (big-endian). -/
def readU16BE? (b : List Byte) (i : Nat) : Option Nat :=
  match readByte? b i, readByte? b (i + 1) with
  | some b0, some b1 => some (b0 * 256 + b1)
  | _, _ => none

/-- `dataView.getUint16(i, true)` (little-endian). -/
def readU16LE? (b : List Byte) (i : Nat) : Option Nat :=
  match readByte? b i, readByte? b (i + 1) with
  | some b0, some b1 => some (b1 * 256 + b0)
  | _, _ => none

/-- `dataView.getUint32(i)` (big-endian). -/
def readU32BE? (b : List Byte) (i : Nat) : Option Nat :=
  match readByte? b i, readByte? b (i + 1), readByte? b (i + 2), readByte? b (i + 3) with
  | some b0, some b1, some b2, some b3 => some (((b0 * 256 + b1) * 256 + b2) * 256 + b3)
  | _, _, _, _ => none

/-- `dataView.getUint32(i, true)` (little-endian). -/
def readU32LE? (b : List Byte) (i : Nat) : Option Nat :=
  match readByte? b i, readByte? b (i + 1), readByte? b (i + 2), readByte? b (i + 3) with
  | some b0, some b1, some b2, some b3 => some (((b3 * 256 + b2) * 256 + b1) * 256 + b0)
  | _, _, _, _ => none

/-- A 3-byte little-endian read.  The source never performs one; this is the
read the spec's VP8X description (claim C3) asks for, used to state the
counterexample. -/
def readU24LE? (b : List Byte) (i : Nat) : Option Nat :=
  match readByte? b i, readByte? b (i + 1), readByte? b (i + 2) with
  | some b0, some b1, some b2 => some ((b2 * 256 + b1) * 256 + b0)
  | _, _, _ => none

/-- `IMAGE_SIGNATURES.WEBP.HEADER` ("RIFF"). -/
def WEBP_HEADER : List Byte := [0x52, 0x49, 0x46, 0x46]

/-- `IMAGE_SIGNATURES.WEBP.FORMAT` ("WEBP"). -/
def WEBP_FORMAT : List Byte := [0x57, 0x45, 0x42, 0x50]

/-- `IMAGE_SIGNATURES.JPEG.HEADER`. -/
def JPEG_HEADER : List Byte := [0xFF, 0xD8, 0xFF]

/-- `IMAGE_SIGNATURES.PNG.HEADER`. -/
def PNG_HEADER : List Byte := [0x89, 0x50, 0x4E, 0x47, 0x0D, 0x0A, 0x1A, 0x0A]

/-- ASCII "VP8 ". -/
def VP8_TAG : List Byte := [0x56, 0x50, 0x38, 0x20]

/-- ASCII "VP8L". -/
def VP8L_TAG : List Byte := [0x56, 0x50, 0x38, 0x4C]

/-- ASCII "VP8X". -/
def VP8X_TAG : List Byte := [0x56, 0x50, 0x38, 0x58]

/-- ASCII "IHDR". -/
def IHDR_TAG : List Byte := [0x49, 0x48, 0x44, 0x52]

/-- `new TextDecoder().decode(imageData.slice(off, off + 4))`, compared against
a 4-character ASCII tag: equal as strings iff the byte lists are equal
(UTF-8 decoding is injective on exact ASCII targets, and a short slice decodes
to a shorter string). -/
def chunkTypeAt (b : List Byte) (off : Nat) : List Byte :=
  (b.drop off).take 4

/-- `isWebP` of the source: length precondition, then the two signature loops
(prefix comparison at 0 and at 8). -/
def isWebP (b : List Byte) : Bool :=
  if b.length < 12 then false
  else (b.take 4 == WEBP_HEADER) && ((b.drop 8).take 4 == WEBP_FORMAT)

/-- `isJPEG` of the source. -/
def isJPEG (b : List Byte) : Bool :=
  if b.length < 3 then false
  else b.take 3 == JPEG_HEADER

/-- `isPNG` of the source. -/
def isPNG (b : List Byte) : Bool :=
  if b.length < 24 then false
  else b.take 8 == PNG_HEADER

/-- `detectFormat` of the source (`classify` in the spec); `none` is Unknown. -/
def detectFormat (b : List Byte) : Option ImageFormat :=
  if isWebP b then some ImageFormat.webp
  else if isJPEG b then some ImageFormat.jpeg
  else if isPNG b then some ImageFormat.png
  else none

/-- The `while` loop of `getWebPDimensions`, one fuel unit per iteration. -/
def webpScan (b : List Byte) : Nat → Nat → ParseOutcome
  | 0, offset =>
    if offset < b.length - 8 then ParseOutcome.fault
    else ParseOutcome.err DimError.dimensionsNotFound
  | fuel + 1, offset =>
    if offset < b.length - 8 then
      if offset + 8 ≥ b.length then ParseOutcome.err DimError.dimensionsNotFound
      else
        match readU32LE? b (offset + 4) with
        | none => ParseOutcome.fault
        | some chunkSize =>
          let chunkType := chunkTypeAt b offset
          let nextOffset := offset + 8 + chunkSize + (if chunkSize % 2 == 1 then 1 else 0)
          if chunkType == VP8_TAG then
            let frameStart := offset + 8
            if frameStart + 10 < b.length then
              match readU16LE? b (frameStart + 6), readU16LE? b (frameStart + 8) with
              | some w16, some h16 =>
                ParseOutcome.ok ⟨(w16 &&& 0x3fff) + 1, (h16 &&& 0x3fff) + 1, ImageFormat.webp⟩
              | _, _ => ParseOutcome.fault
            else webpScan b fuel nextOffset
          else if chunkType == VP8L_TAG then
            let frameStart := offset + 8
            if frameStart + 5 < b.length then
              match readU32LE? b (frameStart + 1) with
              | some bits =>
                ParseOutcome.ok
                  ⟨(bits &&& 0x3fff) + 1, ((bits >>> 14) &&& 0x3fff) + 1, ImageFormat.webp⟩
              | none => ParseOutcome.fault
            else webpScan b fuel nextOffset
          else if chunkType == VP8X_TAG then
            if offset + 18 < b.length then
              match readU32LE? b (offset + 12), readU32LE? b (offset + 15) with
              | some w32, some h32 =>
                ParseOutcome.ok
                  ⟨(w32 &&& 0xffffff) + 1, (h32 &&& 0xffffff) + 1, ImageFormat.webp⟩
              | _, _ => ParseOutcome.fault
            else webpScan b fuel nextOffset
          else webpScan b fuel nextOffset
    else ParseOutcome.err DimError.dimensionsNotFound

/-- `getWebPDimensions` of the source; the loop advances by at least 8 each
iteration, so `b.length + 1` fuel is never exhausted. -/
def getWebPDimensions (b : List Byte) : ParseOutcome :=
  webpScan b (b.length + 1) 12

/-- SOF marker test of `getJpegDimensions` (lines 135-138). -/
def isSOFMarker (m : Byte) : Bool :=
  decide ((0xC0 ≤ m ∧ m ≤ 0xC3) ∨ (0xC5 ≤ m ∧ m ≤ 0xC7) ∨
    (0xC9 ≤ m ∧ m ≤ 0xCB) ∨ (0xCD ≤ m ∧ m ≤ 0xCF))

/-- The `while` loop of `getJpegDimensions`, one fuel unit per iteration.
In the source the bounds guard `offset + 9 < length` sits inside the SOF
branch; when it fails, control falls through to the segment advance, which the
combined condition below reproduces. -/
def jpegScan (b : List Byte) : Nat → Nat → ParseOutcome
  | 0, offset =>
    if offset < b.length - 1 then ParseOutcome.fault
    else ParseOutcome.err DimError.dimensionsNotFound
  | fuel + 1, offset =>
    if offset < b.length - 1 then
      match readByte? b offset with
      | none => ParseOutcome.fault
      | some cur =>
        if cur == 0xFF then
          match readByte? b (offset + 1) with
          | none => ParseOutcome.fault
          | some marker =>
            if isSOFMarker marker && decide (offset + 9 < b.length) then
              match readU16BE? b (offset + 5), readU16BE? b (offset + 7) with
              | some h16, some w16 => ParseOutcome.ok ⟨w16, h16, ImageFormat.jpeg⟩
              | _, _ => ParseOutcome.fault
            else if offset + 3 < b.length then
              match readU16BE? b (offset + 2) with
              | none => ParseOutcome.fault
              | some segmentLength => jpegScan b fuel (offset + 2 + segmentLength)
            else ParseOutcome.err DimError.dimensionsNotFound
        else jpegScan b fuel (offset + 1)
    else ParseOutcome.err DimError.dimensionsNotFound

/-- `getJpegDimensions` of the source; the cursor advances by at least 1 each
iteration, so `b.length + 1` fuel is never exhausted. -/
def getJpegDimensions (b : List Byte) : ParseOutcome :=
  jpegScan b (b.length + 1) 2

/-- `getPngDimensions` of the source. -/
def getPngDimensions (b : List Byte) : ParseOutcome :=
  if 24 ≤ b.length then
    match readU32BE? b 8 with
    | none => ParseOutcome.fault
    | some chunkLength =>
      if chunkTypeAt b 12 == IHDR_TAG && decide (13 ≤ chunkLength) then
        match readU32BE? b 16, readU32BE? b 20 with
        | some w32, some h32 => ParseOutcome.ok ⟨w32, h32, ImageFormat.png⟩
        | _, _ => ParseOutcome.fault
      else ParseOutcome.err DimError.malformedHeader
  else ParseOutcome.err DimError.malformedHeader

/-- `getImageDimensions` of the source (`detectDimensions` in the spec). -/
def getImageDimensions (b : List Byte) : ParseOutcome :=
  if isWebP b then getWebPDimensions b
  else if isJPEG b then getJpegDimensions b
  else if isPNG b then getPngDimensions b
  else ParseOutcome.err DimError.unsupportedFormat

/-- The inner `gcd` arrow function of `calculateAspectRatio`:
`(a, b) => b === 0 ? a : gcd(b, a % b)`. -/
def jsGcd (a b : Nat) : Nat :=
  if h : b = 0 then a else jsGcd b (a % b)
termination_by b
decreasing_by exact Nat.mod_lt _ (Nat.pos_of_ne_zero h)

/-- `calculateAspectRatio` of the source (`reduceAspectRatio` in the spec).
Divisions are exact for every input with a nonzero gcd. -/
def calculateAspectRatio (width height : Nat) : AspectRatio :=
  let divisor := jsGcd width height
  { width := width / divisor, height := height / divisor }

/-- Refinement-side classifier, written from the spec's words for claim C5:
the three signature checks in the spec's fixed order, first match wins. -/
def classifySpec (b : List Byte) : Option ImageFormat :=
  if 12 ≤ b.length ∧ b.take 4 = WEBP_HEADER ∧ (b.drop 8).take 4 = WEBP_FORMAT then
    some ImageFormat.webp
  else if 3 ≤ b.length ∧ b.take 3 = JPEG_HEADER then some ImageFormat.jpeg
  else if 24 ≤ b.length ∧ b.take 8 = PNG_HEADER then some ImageFormat.png
  else none

/-- The WebP lossy fixture of `image-dimensions.test.ts` (100 × 200). -/
def webpFixture : List Byte :=
  [0x52, 0x49, 0x46, 0x46, 0x26, 0x00, 0x00, 0x00, 0x57, 0x45, 0x42, 0x50,
   0x56, 0x50, 0x38, 0x20, 0x1A, 0x00, 0x00, 0x00,
   0x30, 0x01, 0x00, 0x9D, 0x01, 0x2A, 0x63, 0x00, 0xC7, 0x00,
   0x00, 0x00, 0x00, 0x00, 0x00, 0x00, 0x00, 0x00,
   0x00, 0x00, 0x00, 0x00, 0x00, 0x00, 0x00, 0x00]

/-- The JPEG fixture of `image-dimensions.test.ts` (300 × 400). -/
def jpegFixture : List Byte :=
  [0xFF, 0xD8, 0xFF, 0xE0, 0x00, 0x10,
   0x4A, 0x46, 0x49, 0x46, 0x00, 0x01, 0x01, 0x01,
   0x00, 0x48, 0x00, 0x48, 0x00, 0x00,
   0xFF, 0xC0, 0x00, 0x11, 0x08, 0x01, 0x90, 0x01, 0x2C,
   0x03, 0x01, 0x22, 0x00, 0x02, 0x11, 0x01, 0x03, 0x11, 0x01,
   0xFF, 0xD9]

/-- The PNG fixture of `image-dimensions.test.ts` (150 × 250). -/
def pngFixture : List Byte :=
  [0x89, 0x50, 0x4E, 0x47, 0x0D, 0x0A, 0x1A, 0x0A,
   0x00, 0x00, 0x00, 0x0D, 0x49, 0x48, 0x44, 0x52,
   0x00, 0x00, 0x00, 0x96, 0x00, 0x00, 0x00, 0xFA,
   0x08, 0x02, 0x00, 0x00, 0x00, 0x87, 0x8A, 0xC5, 0x0F]

/-- A well-formed 24-byte PNG whose IHDR width field is zero (height 1). -/
def pngZeroWidth : List Byte :=
  [0x89, 0x50, 0x4E, 0x47, 0x0D, 0x0A, 0x1A, 0x0A,
   0x00, 0x00, 0x00, 0x0D, 0x49, 0x48, 0x44, 0x52,
   0x00, 0x00, 0x00, 0x00, 0x00, 0x00, 0x00, 0x01]

/-- A minimal VP8L WebP buffer decoding to 1 × 1. -/
def webpLossless1x1 : List Byte :=
  [0x52, 0x49, 0x46, 0x46, 0x12, 0x00, 0x00, 0x00, 0x57, 0x45, 0x42, 0x50,
   0x56, 0x50, 0x38, 0x4C, 0x06, 0x00, 0x00, 0x00,
   0x2F, 0x00, 0x00, 0x00, 0x00, 0x00]

/-- A VP8X buffer whose bytes at chunk-start offsets 12 and 15 (the offsets
the code reads) differ from the bytes at chunk-data offsets 12 and 15 (the
offsets claim C3 names), separating the two readings. -/
def webpVp8xCex : List Byte :=
  [0x52, 0x49, 0x46, 0x46, 0x20, 0x00, 0x00, 0x00, 0x57, 0x45, 0x42, 0x50,
   0x56, 0x50, 0x38, 0x58, 0x0A, 0x00, 0x00, 0x00,
   0x00, 0x00, 0x00, 0x00,
   0x01, 0x00, 0x00,
   0x02, 0x00, 0x00,
   0x00, 0x00,
   0x05, 0x00, 0x00,
   0x07, 0x00, 0x00,
   0x00, 0x00]

/-- A minimal VP8X buffer (length 31) decoding to 4 × 5. -/
def webpVp8xSmall : List Byte :=
  [0x52, 0x49, 0x46, 0x46, 0x17, 0x00, 0x00, 0x00, 0x57, 0x45, 0x42, 0x50,
   0x56, 0x50, 0x38, 0x58, 0x0A, 0x00, 0x00, 0x00,
   0x00, 0x00, 0x00, 0x00,
   0x03, 0x00, 0x00,
   0x04, 0x00, 0x00,
   0x00]

/-- A JPEG-classified buffer with a stray non-marker byte at the cursor start
followed by an SOF0 segment (300 × 400). -/
def jpegStray : List Byte :=
  [0xFF, 0xD8, 0x00,
   0xFF, 0xC0, 0x00, 0x11, 0x08, 0x01, 0x90, 0x01, 0x2C, 0x00]

example : getImageDimensions webpFixture = ParseOutcome.ok ⟨100, 200, ImageFormat.webp⟩ := by
  decide

example : getImageDimensions jpegFixture = ParseOutcome.ok ⟨300, 400, ImageFormat.jpeg⟩ := by
  decide

example : getImageDimensions pngFixture = ParseOutcome.ok ⟨150, 250, ImageFormat.png⟩ := by
  decide

example : getImageDimensions [0x00, 0x01, 0x02, 0x03] =
    ParseOutcome.err DimError.unsupportedFormat := by
  decide

/-! ## Read-primitive lemmas -/

theorem readByte?_isSome {b : List Byte} {i : Nat} (h : i < b.length) :
    ∃ v, readByte? b i = some v :=
  ⟨b.get ⟨i, h⟩, by simp [readByte?, h]⟩

theorem readU16BE?_isSome {b : List Byte} {i : Nat} (h : i + 2 ≤ b.length) :
    ∃ v, readU16BE? b i = some v := by
  obtain ⟨x, hx⟩ := readByte?_isSome (b := b) (i := i) (by omega)
  obtain ⟨y, hy⟩ := readByte?_isSome (b := b) (i := i + 1) (by omega)
  exact ⟨x * 256 + y, by simp [readU16BE?, hx, hy]⟩

theorem readU16LE?_isSome {b : List Byte} {i : Nat} (h : i + 2 ≤ b.length) :
    ∃ v, readU16LE? b i = some v := by
  obtain ⟨x, hx⟩ := readByte?_isSome (b := b) (i := i) (by omega)
  obtain ⟨y, hy⟩ := readByte?_isSome (b := b) (i := i + 1) (by omega)
  exact ⟨y * 256 + x, by simp [readU16LE?, hx, hy]⟩

theorem readU32BE?_isSome {b : List Byte} {i : Nat} (h : i + 4 ≤ b.length) :
    ∃ v, readU32BE? b i = some v := by
  obtain ⟨x0, hx0⟩ := readByte?_isSome (b := b) (i := i) (by omega)
  obtain ⟨x1, hx1⟩ := readByte?_isSome (b := b) (i := i + 1) (by omega)
  obtain ⟨x2, hx2⟩ := readByte?_isSome (b := b) (i := i + 2) (by omega)
  obtain ⟨x3, hx3⟩ := readByte?_isSome (b := b) (i := i + 3) (by omega)
  exact ⟨((x0 * 256 + x1) * 256 + x2) * 256 + x3, by simp [readU32BE?, hx0, hx1, hx2, hx3]⟩

theorem readU32LE?_isSome {b : List Byte} {i : Nat} (h : i + 4 ≤ b.length) :
    ∃ v, readU32LE? b i = some v := by
  obtain ⟨x0, hx0⟩ := readByte?_isSome (b := b) (i := i) (by omega)
  obtain ⟨x1, hx1⟩ := readByte?_isSome (b := b) (i := i + 1) (by omega)
  obtain ⟨x2, hx2⟩ := readByte?_isSome (b := b) (i := i + 2) (by omega)
  obtain ⟨x3, hx3⟩ := readByte?_isSome (b := b) (i := i + 3) (by omega)
  exact ⟨((x3 * 256 + x2) * 256 + x1) * 256 + x0, by simp [readU32LE?, hx0, hx1, hx2, hx3]⟩

/-! ## Aspect ratio reduction -/

theorem jsGcd_eq_gcd (a b : Nat) : jsGcd a b = Nat.gcd a b := by
  induction b using Nat.strong_induction_on generalizing a with
  | _ b ih =>
    rw [jsGcd]
    split
    · next h => simp [h]
    · next h =>
      rw [ih (a % b) (Nat.mod_lt _ (Nat.pos_of_ne_zero h))]
      calc Nat.gcd b (a % b) = Nat.gcd (a % b) b := Nat.gcd_comm _ _
        _ = Nat.gcd b a := (Nat.gcd_rec b a).symm
        _ = Nat.gcd a b := Nat.gcd_comm _ _

theorem calculateAspectRatio_eq (w h : Nat) :
    calculateAspectRatio w h = ⟨w / Nat.gcd w h, h / Nat.gcd w h⟩ := by
  simp [calculateAspectRatio, jsGcd_eq_gcd]

/-- C2: contrary to the spec's `InvalidDimensions` requirement, the source
`calculateAspectRatio` accepts a zero dimension and returns an ordinary
`AspectRatio` value: on input (0, 5) it returns {width: 0, height: 1}. -/
theorem calculateAspectRatio_zero_input_returns_value :
    calculateAspectRatio 0 5 = { width := 0, height := 1 } := by
  rw [calculateAspectRatio_eq]
  simp

/-- C6: for positive inputs, `calculateAspectRatio` divides both components by
their greatest common divisor (the inner recursive function agrees with
`Nat.gcd`), the result is in lowest terms, and coprime inputs are returned
unchanged. -/
theorem calculateAspectRatio_gcd_spec (w h : Nat) (hw : 0 < w) (hh : 0 < h) :
    calculateAspectRatio w h = ⟨w / Nat.gcd w h, h / Nat.gcd w h⟩ ∧
    Nat.gcd (calculateAspectRatio w h).width (calculateAspectRatio w h).height = 1 ∧
    (Nat.gcd w h = 1 → calculateAspectRatio w h = ⟨w, h⟩) := by
  have hg0 : Nat.gcd w h ≠ 0 := fun hz =>
    absurd (Nat.eq_zero_of_gcd_eq_zero_left hz) (by omega)
  refine ⟨calculateAspectRatio_eq w h, ?_, ?_⟩
  · rw [calculateAspectRatio_eq]
    show Nat.gcd (w / Nat.gcd w h) (h / Nat.gcd w h) = 1
    exact Nat.coprime_div_gcd_div_gcd (Nat.pos_of_ne_zero hg0)
  · intro h1
    rw [calculateAspectRatio_eq, h1]
    simp

theorem calculateAspectRatio_gcd_spec_witness :
    calculateAspectRatio 7 11 = { width := 7, height := 11 } :=
  (calculateAspectRatio_gcd_spec 7 11 (by decide) (by decide)).2.2 (by norm_num)

/-- C9: reduction is idempotent on positive pairs: an already-coprime pair is
returned unchanged, and reducing the result of a reduction returns it
unchanged. -/
theorem calculateAspectRatio_idempotent (w h : Nat) (hw : 0 < w) (hh : 0 < h) :
    (Nat.gcd w h = 1 → calculateAspectRatio w h = ⟨w, h⟩) ∧
    calculateAspectRatio (calculateAspectRatio w h).width (calculateAspectRatio w h).height =
      calculateAspectRatio w h := by
  have hg0 : Nat.gcd w h ≠ 0 := fun hz =>
    absurd (Nat.eq_zero_of_gcd_eq_zero_left hz) (by omega)
  constructor
  · intro h1
    rw [calculateAspectRatio_eq, h1]
    simp
  · rw [calculateAspectRatio_eq w h]
    show calculateAspectRatio (w / Nat.gcd w h) (h / Nat.gcd w h) = _
    have hc : Nat.gcd (w / Nat.gcd w h) (h / Nat.gcd w h) = 1 :=
      Nat.coprime_div_gcd_div_gcd (Nat.pos_of_ne_zero hg0)
    rw [calculateAspectRatio_eq, hc]
    simp

theorem calculateAspectRatio_idempotent_witness :
    calculateAspectRatio (calculateAspectRatio 4 6).width (calculateAspectRatio 4 6).height =
      calculateAspectRatio 4 6 :=
  (calculateAspectRatio_idempotent 4 6 (by decide) (by decide)).2

/-! ## PNG parser -/

/-- C8: on every buffer of length at least 24, `getPngDimensions` checks the
IHDR tag at offset 12 and the declared chunk length (big-endian at offset 8)
against 13; on success it returns the big-endian 32-bit fields at offsets 16
and 20 as width and height, and otherwise fails with `MalformedHeader`. -/
theorem getPngDimensions_spec (b : List Byte) (h24 : 24 ≤ b.length) :
    getPngDimensions b =
      if chunkTypeAt b 12 = IHDR_TAG ∧ 13 ≤ (readU32BE? b 8).getD 0 then
        ParseOutcome.ok
          ⟨(readU32BE? b 16).getD 0, (readU32BE? b 20).getD 0, ImageFormat.png⟩
      else ParseOutcome.err DimError.malformedHeader := by
  obtain ⟨len32, hlen⟩ := readU32BE?_isSome (b := b) (i := 8) (by omega)
  obtain ⟨w32, hw32⟩ := readU32BE?_isSome (b := b) (i := 16) (by omega)
  obtain ⟨h32, hh32⟩ := readU32BE?_isSome (b := b) (i := 20) (by omega)
  by_cases h1 : chunkTypeAt b 12 = IHDR_TAG <;> by_cases h2 : 13 ≤ len32 <;>
    simp [getPngDimensions, h24, hlen, hw32, hh32, h1, h2, beq_iff_eq]

theorem getPngDimensions_spec_witness :
    getPngDimensions pngFixture = ParseOutcome.ok ⟨150, 250, ImageFormat.png⟩ :=
  (getPngDimensions_spec pngFixture (by decide)).trans (by decide)

theorem getPngDimensions_cases (b : List Byte) :
    (∃ d, getPngDimensions b = ParseOutcome.ok d ∧ d.format = ImageFormat.png) ∨
      getPngDimensions b = ParseOutcome.err DimError.malformedHeader := by
  by_cases h24 : 24 ≤ b.length
  · rw [getPngDimensions_spec b h24]
    by_cases hc : chunkTypeAt b 12 = IHDR_TAG ∧ 13 ≤ (readU32BE? b 8).getD 0
    · exact Or.inl ⟨_, by rw [if_pos hc], rfl⟩
    · exact Or.inr (by rw [if_neg hc])
  · exact Or.inr (by simp [getPngDimensions, h24])

/-! ## JPEG parser -/

theorem jpegScan_total (b : List Byte) :
    ∀ fuel off, b.length ≤ off + fuel →
      (∃ d, jpegScan b fuel off = ParseOutcome.ok d ∧ d.format = ImageFormat.jpeg) ∨
        jpegScan b fuel off = ParseOutcome.err DimError.dimensionsNotFound := by
  intro fuel
  induction fuel with
  | zero =>
    intro off hle
    have hc : ¬ (off < b.length - 1) := by omega
    exact Or.inr (by simp [jpegScan, hc])
  | succ fuel ih =>
    intro off hle
    by_cases hc : off < b.length - 1
    · obtain ⟨cur, hcur⟩ := readByte?_isSome (b := b) (i := off) (by omega)
      by_cases hff : cur = 0xFF
      · obtain ⟨mk, hmk⟩ := readByte?_isSome (b := b) (i := off + 1) (by omega)
        by_cases hsof : (isSOFMarker mk && decide (off + 9 < b.length)) = true
        · have h9 : off + 9 < b.length :=
            of_decide_eq_true ((Bool.and_eq_true _ _).mp hsof).2
          obtain ⟨hv, hh5⟩ := readU16BE?_isSome (b := b) (i := off + 5) (by omega)
          obtain ⟨wv, hw7⟩ := readU16BE?_isSome (b := b) (i := off + 7) (by omega)
          exact Or.inl ⟨⟨wv, hv, ImageFormat.jpeg⟩,
            by simp [jpegScan, hc, hcur, hff, hmk, hsof, hh5, hw7], rfl⟩
        · simp only [Bool.not_eq_true] at hsof
          by_cases h3 : off + 3 < b.length
          · obtain ⟨sl, hsl⟩ := readU16BE?_isSome (b := b) (i := off + 2) (by omega)
            have hrec := ih (off + 2 + sl) (by omega)
            simpa [jpegScan, hc, hcur, hff, hmk, hsof, h3, hsl] using hrec
          · exact Or.inr (by simp [jpegScan, hc, hcur, hff, hmk, hsof, h3])
      · have hrec := ih (off + 1) (by omega)
        simpa [jpegScan, hc, hcur, hff] using hrec
    · exact Or.inr (by simp [jpegScan, hc])

/-- C7: whenever the scanner's cursor sits on 0xFF followed by a
Start-Of-Frame marker code and the 10-byte frame header fits in the buffer,
the scan returns immediately with height read as the big-endian 16-bit value
5 bytes past the marker position (after segment length and precision) and
width as the big-endian 16-bit value 7 bytes past it; and every run of the
scanner either succeeds or fails with `DimensionsNotFound`. -/
theorem jpegScan_sof_extract (b : List Byte) (fuel off : Nat) (m : Byte)
    (hff : readByte? b off = some 0xFF)
    (hm : readByte? b (off + 1) = some m)
    (hsof : isSOFMarker m = true)
    (h9 : off + 9 < b.length) :
    (∃ hv wv, readU16BE? b (off + 5) = some hv ∧ readU16BE? b (off + 7) = some wv ∧
      jpegScan b (fuel + 1) off = ParseOutcome.ok ⟨wv, hv, ImageFormat.jpeg⟩) ∧
    ((∃ d, getJpegDimensions b = ParseOutcome.ok d) ∨
      getJpegDimensions b = ParseOutcome.err DimError.dimensionsNotFound) := by
  constructor
  · have hc : off < b.length - 1 := by omega
    obtain ⟨hv, hh5⟩ := readU16BE?_isSome (b := b) (i := off + 5) (by omega)
    obtain ⟨wv, hw7⟩ := readU16BE?_isSome (b := b) (i := off + 7) (by omega)
    exact ⟨hv, wv, hh5, hw7, by simp [jpegScan, hc, hff, hm, hsof, h9, hh5, hw7]⟩
  · rcases jpegScan_total b (b.length + 1) 2 (by omega) with ⟨d, hd, -⟩ | herr
    · exact Or.inl ⟨d, hd⟩
    · exact Or.inr herr

theorem jpegScan_sof_extract_witness :
    jpegScan jpegFixture 1 20 = ParseOutcome.ok ⟨300, 400, ImageFormat.jpeg⟩ := by
  obtain ⟨hv, wv, h5, h7, hrun⟩ :=
    (jpegScan_sof_extract jpegFixture 0 20 0xC0 (by decide) (by decide) (by decide)
      (by decide)).1
  have e5 : hv = 400 := Option.some.inj (h5.symm.trans (by decide))
  have e7 : wv = 300 := Option.some.inj (h7.symm.trans (by decide))
  subst e5 e7
  exact hrun

/-- C10: when the byte at the cursor is not 0xFF, the scanner advances the
cursor by exactly one byte and continues scanning. -/
theorem jpegScan_skip_nonmarker (b : List Byte) (fuel off : Nat) (cur : Byte)
    (hc : off < b.length - 1)
    (hcur : readByte? b off = some cur)
    (hne : cur ≠ 0xFF) :
    jpegScan b (fuel + 1) off = jpegScan b fuel (off + 1) := by
  simp [jpegScan, hc, hcur, hne]

theorem jpegScan_skip_nonmarker_witness :
    jpegScan jpegStray 12 2 = jpegScan jpegStray 11 3 ∧
      getJpegDimensions jpegStray = ParseOutcome.ok ⟨300, 400, ImageFormat.jpeg⟩ :=
  ⟨jpegScan_skip_nonmarker jpegStray 11 2 0x00 (by decide) (by decide) (by decide),
    by decide⟩

/-! ## WebP parser -/

theorem webpScan_total (b : List Byte) :
    ∀ fuel off, b.length ≤ off + fuel →
      (∃ d, webpScan b fuel off = ParseOutcome.ok d ∧ d.format = ImageFormat.webp ∧
        0 < d.width ∧ 0 < d.height) ∨
        webpScan b fuel off = ParseOutcome.err DimError.dimensionsNotFound := by
  intro fuel
  induction fuel with
  | zero =>
    intro off hle
    have hc : ¬ (off < b.length - 8) := by omega
    exact Or.inr (by simp [webpScan, hc])
  | succ fuel ih =>
    intro off hle
    by_cases hc : off < b.length - 8
    · have h8 : off + 8 < b.length := by omega
      have h8' : ¬ (off + 8 ≥ b.length) := by omega
      obtain ⟨cs, hcs⟩ := readU32LE?_isSome (b := b) (i := off + 4) (by omega)
      have hnext : b.length ≤ (off + 8 + cs + (if cs % 2 == 1 then 1 else 0)) + fuel := by
        split <;> omega
      have n21 : ¬ (VP8L_TAG = VP8_TAG) := by decide
      have n31 : ¬ (VP8X_TAG = VP8_TAG) := by decide
      have n32 : ¬ (VP8X_TAG = VP8L_TAG) := by decide
      by_cases t1 : chunkTypeAt b off = VP8_TAG
      · by_cases g1 : off + 8 + 10 < b.length
        · obtain ⟨w16, hw16⟩ := readU16LE?_isSome (b := b) (i := off + 8 + 6) (by omega)
          obtain ⟨h16, hh16⟩ := readU16LE?_isSome (b := b) (i := off + 8 + 8) (by omega)
          exact Or.inl ⟨⟨(w16 &&& 0x3fff) + 1, (h16 &&& 0x3fff) + 1, ImageFormat.webp⟩,
            by simp [webpScan, hc, h8', hcs, t1, g1, hw16, hh16],
            rfl, Nat.succ_pos _, Nat.succ_pos _⟩
        · have hrec := ih _ hnext
          simpa [webpScan, hc, h8', hcs, t1, g1] using hrec
      · by_cases t2 : chunkTypeAt b off = VP8L_TAG
        · by_cases g2 : off + 8 + 5 < b.length
          · obtain ⟨bits, hbits⟩ := readU32LE?_isSome (b := b) (i := off + 8 + 1) (by omega)
            exact Or.inl ⟨⟨(bits &&& 0x3fff) + 1, ((bits >>> 14) &&& 0x3fff) + 1,
              ImageFormat.webp⟩,
              by simp [webpScan, hc, h8', hcs, t1, t2, n21, g2, hbits],
              rfl, Nat.succ_pos _, Nat.succ_pos _⟩
          · have hrec := ih _ hnext
            simpa [webpScan, hc, h8', hcs, t1, t2, n21, g2] using hrec
        · by_cases t3 : chunkTypeAt b off = VP8X_TAG
          · by_cases g3 : off + 18 < b.length
            · obtain ⟨w32, hw32⟩ := readU32LE?_isSome (b := b) (i := off + 12) (by omega)
              obtain ⟨h32, hh32⟩ := readU32LE?_isSome (b := b) (i := off + 15) (by omega)
              exact Or.inl ⟨⟨(w32 &&& 0xffffff) + 1, (h32 &&& 0xffffff) + 1,
                ImageFormat.webp⟩,
                by simp [webpScan, hc, h8', hcs, t1, t2, t3, n31, n32, g3, hw32, hh32],
                rfl, Nat.succ_pos _, Nat.succ_pos _⟩
            · have hrec := ih _ hnext
              simpa [webpScan, hc, h8', hcs, t1, t2, t3, n31, n32, g3] using hrec
          · have hrec := ih _ hnext
            simpa [webpScan, hc, h8', hcs, t1, t2, t3] using hrec
    · exact Or.inr (by simp [webpScan, hc])

/-- C4: the WebP parse of any buffer either succeeds or fails with
`DimensionsNotFound` — in particular it never hits the `fault` outcome that
marks an unguarded out-of-bounds read, and no other error kind escapes;
truncated chunk headers, dimension fields, and chunk-size skips past the end
of the buffer all land in `DimensionsNotFound`. -/
theorem getWebPDimensions_safe (b : List Byte) :
    (∃ d, getWebPDimensions b = ParseOutcome.ok d) ∨
      getWebPDimensions b = ParseOutcome.err DimError.dimensionsNotFound := by
  rcases webpScan_total b (b.length + 1) 12 (by omega) with ⟨d, hd, -, -, -⟩ | herr
  · exact Or.inl ⟨d, hd⟩
  · exact Or.inr herr

/-- C3 counterexample: the code reads the VP8X width and height as 4-byte
masked little-endian values at offsets 12 and 15 from the chunk START (that
is, chunk-data offsets 4 and 7), not as 3-byte values at chunk-data offsets
12 and 15 as the claim states.  On `webpVp8xCex` the code yields 2 × 3 while
the claim's formula ((3-byte LE at chunk-data offset 12) + 1, (… 15) + 1)
yields 6 × 8. -/
theorem webp_vp8x_offsets_cex :
    getWebPDimensions webpVp8xCex = ParseOutcome.ok ⟨2, 3, ImageFormat.webp⟩ ∧
    readU24LE? webpVp8xCex (12 + 8 + 12) = some 5 ∧
    readU24LE? webpVp8xCex (12 + 8 + 15) = some 7 ∧
    getWebPDimensions webpVp8xCex ≠
      ParseOutcome.ok ⟨5 + 1, 7 + 1, ImageFormat.webp⟩ := by
  decide

/-- C3 amended: when the chunk walk reaches a VP8X chunk at `off` and the
guard `off + 18 < length` holds, the parser returns width
(u32-LE at chunk-start offset 12, masked to 24 bits) + 1 and height
(u32-LE at chunk-start offset 15, masked to 24 bits) + 1; each field is read
as 4 bytes with the top byte masked away, so the byte after the 3-byte field
must also lie inside the buffer. -/
theorem webpScan_vp8x_step (b : List Byte) (fuel off : Nat)
    (hc : off < b.length - 8)
    (htag : chunkTypeAt b off = VP8X_TAG)
    (h18 : off + 18 < b.length) :
    ∃ w32 h32, readU32LE? b (off + 12) = some w32 ∧ readU32LE? b (off + 15) = some h32 ∧
      webpScan b (fuel + 1) off =
        ParseOutcome.ok ⟨(w32 &&& 0xffffff) + 1, (h32 &&& 0xffffff) + 1, ImageFormat.webp⟩ := by
  have h8' : ¬ (off + 8 ≥ b.length) := by omega
  obtain ⟨cs, hcs⟩ := readU32LE?_isSome (b := b) (i := off + 4) (by omega)
  obtain ⟨w32, hw32⟩ := readU32LE?_isSome (b := b) (i := off + 12) (by omega)
  obtain ⟨h32, hh32⟩ := readU32LE?_isSome (b := b) (i := off + 15) (by omega)
  have n31 : ¬ (VP8X_TAG = VP8_TAG) := by decide
  have n32 : ¬ (VP8X_TAG = VP8L_TAG) := by decide
  exact ⟨w32, h32, hw32, hh32,
    by simp [webpScan, hc, h8', hcs, htag, n31, n32, h18, hw32, hh32]⟩

theorem webpScan_vp8x_step_witness :
    getWebPDimensions webpVp8xSmall = ParseOutcome.ok ⟨4, 5, ImageFormat.webp⟩ := by
  obtain ⟨w32, h32, hw32, hh32, hrun⟩ :=
    webpScan_vp8x_step webpVp8xSmall 31 12 (by decide) (by decide) (by decide)
  have ew : w32 = 67108867 := Option.some.inj (hw32.symm.trans (by decide))
  have eh : h32 = 4 := Option.some.inj (hh32.symm.trans (by decide))
  subst ew eh
  exact hrun.trans (by decide)

/-! ## Success invariants (claim C1) -/

/-- C1 counterexample: a well-formed PNG whose IHDR width field is zero is
returned as a success with width 0, so a successful parse does not guarantee
positive dimensions and zero is not surfaced as a parse failure. -/
theorem getImageDimensions_zero_width_cex :
    ¬ (∀ b d, getImageDimensions b = ParseOutcome.ok d → 0 < d.width ∧ 0 < d.height) := by
  intro hclaim
  have h := hclaim pngZeroWidth ⟨0, 1, ImageFormat.png⟩ (by decide)
  exact absurd h.1 (by decide)

/-- C1 amended: positivity of successfully produced dimensions holds for the
WebP parser (whose three variants all add 1 to the decoded field), while the
JPEG and PNG parsers return the raw decoded field values, which may be zero:
every successful result carrying the WebP format has positive width and
height. -/
theorem getImageDimensions_webp_positive (b : List Byte) (d : ImageDimensions)
    (hok : getImageDimensions b = ParseOutcome.ok d)
    (hfmt : d.format = ImageFormat.webp) :
    0 < d.width ∧ 0 < d.height := by
  unfold getImageDimensions at hok
  by_cases hw : isWebP b = true
  · rw [if_pos hw] at hok
    unfold getWebPDimensions at hok
    rcases webpScan_total b (b.length + 1) 12 (by omega) with ⟨d', hd', -, hp1, hp2⟩ | herr
    · cases ParseOutcome.ok.inj (hd'.symm.trans hok)
      exact ⟨hp1, hp2⟩
    · exact ParseOutcome.noConfusion (herr.symm.trans hok)
  · rw [if_neg hw] at hok
    by_cases hj : isJPEG b = true
    · rw [if_pos hj] at hok
      unfold getJpegDimensions at hok
      rcases jpegScan_total b (b.length + 1) 2 (by omega) with ⟨d', hd', hfmt'⟩ | herr
      · cases ParseOutcome.ok.inj (hd'.symm.trans hok)
        rw [hfmt] at hfmt'
        exact ImageFormat.noConfusion hfmt'
      · exact ParseOutcome.noConfusion (herr.symm.trans hok)
    · rw [if_neg hj] at hok
      by_cases hp : isPNG b = true
      · rw [if_pos hp] at hok
        rcases getPngDimensions_cases b with ⟨d', hd', hfmt'⟩ | herr
        · cases ParseOutcome.ok.inj (hd'.symm.trans hok)
          rw [hfmt] at hfmt'
          exact ImageFormat.noConfusion hfmt'
        · exact ParseOutcome.noConfusion (herr.symm.trans hok)
      · rw [if_neg hp] at hok
        exact ParseOutcome.noConfusion hok

theorem getImageDimensions_webp_positive_witness :
    0 < (⟨1, 1, ImageFormat.webp⟩ : ImageDimensions).width ∧
      0 < (⟨1, 1, ImageFormat.webp⟩ : ImageDimensions).height :=
  getImageDimensions_webp_positive webpLossless1x1 ⟨1, 1, ImageFormat.webp⟩ (by decide) rfl

/-! ## Format classification (claim C5) -/

theorem isWebP_iff (b : List Byte) :
    isWebP b = true ↔
      12 ≤ b.length ∧ b.take 4 = WEBP_HEADER ∧ (b.drop 8).take 4 = WEBP_FORMAT := by
  unfold isWebP
  split
  · next hlt =>
    simp only [Bool.false_eq_true, false_iff]
    rintro ⟨h12, -, -⟩
    omega
  · next hge =>
    simp only [Bool.and_eq_true, beq_iff_eq]
    constructor
    · rintro ⟨h1, h2⟩
      exact ⟨by omega, h1, h2⟩
    · rintro ⟨-, h1, h2⟩
      exact ⟨h1, h2⟩

theorem isJPEG_iff (b : List Byte) :
    isJPEG b = true ↔ 3 ≤ b.length ∧ b.take 3 = JPEG_HEADER := by
  unfold isJPEG
  split
  · next hlt =>
    simp only [Bool.false_eq_true, false_iff]
    rintro ⟨h3, -⟩
    omega
  · next hge =>
    simp only [beq_iff_eq]
    constructor
    · intro h1
      exact ⟨by omega, h1⟩
    · rintro ⟨-, h1⟩
      exact h1

theorem isPNG_iff (b : List Byte) :
    isPNG b = true ↔ 24 ≤ b.length ∧ b.take 8 = PNG_HEADER := by
  unfold isPNG
  split
  · next hlt =>
    simp only [Bool.false_eq_true, false_iff]
    rintro ⟨h24, -⟩
    omega
  · next hge =>
    simp only [beq_iff_eq]
    constructor
    · intro h1
      exact ⟨by omega, h1⟩
    · rintro ⟨-, h1⟩
      exact h1

/-- C5: `detectFormat` coincides with the spec-side classifier (the three
signature checks with their minimum lengths, in the fixed order WebP, JPEG,
PNG, first match winning, `none` for Unknown), and a buffer classifies as
Unknown exactly when `getImageDimensions` fails with `UnsupportedFormat` —
in particular no format-specific parser error can masquerade as
`UnsupportedFormat`. -/
theorem detectFormat_order_spec (b : List Byte) :
    detectFormat b = classifySpec b ∧
      (detectFormat b = none ↔
        getImageDimensions b = ParseOutcome.err DimError.unsupportedFormat) := by
  constructor
  · unfold detectFormat classifySpec
    by_cases hw : isWebP b = true
    · rw [if_pos hw, if_pos ((isWebP_iff b).mp hw)]
    · rw [if_neg hw, if_neg (fun hh => hw ((isWebP_iff b).mpr hh))]
      by_cases hj : isJPEG b = true
      · rw [if_pos hj, if_pos ((isJPEG_iff b).mp hj)]
      · rw [if_neg hj, if_neg (fun hh => hj ((isJPEG_iff b).mpr hh))]
        by_cases hp : isPNG b = true
        · rw [if_pos hp, if_pos ((isPNG_iff b).mp hp)]
        · rw [if_neg hp, if_neg (fun hh => hp ((isPNG_iff b).mpr hh))]
  · constructor
    · intro hnone
      have hw : ¬ isWebP b = true := fun h => by simp [detectFormat, h] at hnone
      have hj : ¬ isJPEG b = true := fun h => by simp [detectFormat, hw, h] at hnone
      have hp : ¬ isPNG b = true := fun h => by simp [detectFormat, hw, hj, h] at hnone
      simp [getImageDimensions, hw, hj, hp]
    · intro herr
      have hw : ¬ isWebP b = true := by
        intro h
        rw [getImageDimensions, if_pos h] at herr
        unfold getWebPDimensions at herr
        rcases webpScan_total b (b.length + 1) 12 (by omega) with ⟨d, hd, -, -, -⟩ | hdnf
        · exact ParseOutcome.noConfusion (hd.symm.trans herr)
        · exact DimError.noConfusion (ParseOutcome.err.inj (hdnf.symm.trans herr))
      have hj : ¬ isJPEG b = true := by
        intro h
        rw [getImageDimensions, if_neg hw, if_pos h] at herr
        unfold getJpegDimensions at herr
        rcases jpegScan_total b (b.length + 1) 2 (by omega) with ⟨d, hd, -⟩ | hdnf
        · exact ParseOutcome.noConfusion (hd.symm.trans herr)
        · exact DimError.noConfusion (ParseOutcome.err.inj (hdnf.symm.trans herr))
      have hp : ¬ isPNG b = true := by
        intro h
        rw [getImageDimensions, if_neg hw, if_neg hj, if_pos h] at herr
        rcases getPngDimensions_cases b with ⟨d, hd, -⟩ | hmal
        · exact ParseOutcome.noConfusion (hd.symm.trans herr)
        · exact DimError.noConfusion (ParseOutcome.err.inj (hmal.symm.trans herr))
      simp [detectFormat, hw, hj, hp]
